import Mathlib

/-!
Verification of the dex-brain task dashboard (`src/app/page.tsx`).

The development shallowly embeds the pure core of the page: the scoring
engine (`daysUntilDeadline`, `calculateScore`, `calculateLevel`), the
filter/sort pipeline's comparator and sort stage, and the store operations
(`handleSubmit`, `updateTaskStatus`, the load effect).

Modelling conventions:
* JS numbers that hold small integers (impact, urgency, day counts, scores,
  comparator results) are modelled as `Int`; all arithmetic involved is exact
  in IEEE doubles at these magnitudes.
* The system clock and JS `Date` parsing are modelled by an explicit
  environment: `parseDate : String → Option Int` maps a date string `s` to
  the calendar-day number of `new Date(s ++ "T00:00:00")` at local midnight
  (`none` when the date is invalid, i.e. `getTime()` is `NaN`), and
  `today : Int` is the day number of `startOfDay(new Date())`.  Both
  timestamps sit at local midnight, so their millisecond difference is an
  exact multiple of `MS_PER_DAY` and `Math.ceil(diff / MS_PER_DAY)` is the
  exact day difference `target - today`.
* `String.localeCompare` is locale-dependent; it is modelled as an abstract
  comparison `strCmp : String → String → Int` whose standard comparator
  properties (sign antisymmetry, transitivity) are hypotheses where needed.
* `undefined`/absent optional fields are `Option`; JS falsiness of the empty
  string is made explicit (`if s = ""`).
-/

namespace DexBrain

/-! ## Data model (`type Task`, `type TaskForm`) -/

inductive Area
  | Infra | Backend | DevOps | Certificates | DNS | Monitoring | Research | Personal
deriving DecidableEq, Repr

inductive TaskType
  | Ticket | Microtask | Investigation | FollowUp | Meeting
deriving DecidableEq, Repr

inductive Origin
  | Jira | Slack | Meeting | Boss | Self
deriving DecidableEq, Repr

inductive Effort
  | e5m | e15m | e30m | e1hPlus | Research
deriving DecidableEq, Repr

inductive Status
  | Inbox | Doing | Waiting | Done
deriving DecidableEq, Repr

/-- The `Task` record.  `impact` and `urgency` are declared in the source as
the literal type `1 | 2 | 3 | 4 | 5`; they are embedded as `Int`, and theorems
that depend on the range take `1 ≤ _ ∧ _ ≤ 5` as hypotheses (data loaded from
storage is not revalidated at runtime). -/
structure Task where
  id : String
  createdAt : String
  title : String
  description : Option String
  area : Area
  type : TaskType
  origin : Origin
  impact : Int
  urgency : Int
  effort : Effort
  deadline : Option String
  status : Status
deriving DecidableEq, Repr

/-- The modal form state (`type TaskForm`); every field is a plain string or
enum, `deadline` is `""` when unset. -/
structure TaskForm where
  title : String
  description : String
  area : Area
  type : TaskType
  origin : Origin
  impact : Int
  urgency : Int
  effort : Effort
  deadline : String
  status : Status
deriving DecidableEq, Repr

/-! ## Scoring engine -/

/-- `daysUntilDeadline(deadline?: string): number | null`.

`if (!deadline) return null` covers both the absent field and the falsy empty
string.  `parseDate` abstracts `new Date(deadline + "T00:00:00")`, returning
`none` exactly when `Number.isNaN(target.getTime())`.  `today` is the day
number of `startOfDay(new Date())`; the final `Math.ceil` of the millisecond
difference divided by `MS_PER_DAY` is the exact difference of day numbers. -/
def daysUntilDeadline (parseDate : String → Option Int) (today : Int)
    (deadline : Option String) : Option Int :=
  match deadline with
  | none => none
  | some s =>
    if s = "" then none
    else
      match parseDate s with
      | none => none
      | some target => some (target - today)

/-- `calculateScore(task: Task): number`. -/
def calculateScore (parseDate : String → Option Int) (today : Int) (task : Task) : Int :=
  if task.status = Status.Done then 0
  else
    let score := task.impact * 2 + task.urgency
    let score :=
      match daysUntilDeadline parseDate today task.deadline with
      | some days => score + (1000 - days * 20)
      | none => score
    if task.status = Status.Waiting then score - 10 else score

inductive Level
  | Critical | High | Medium | Low
deriving DecidableEq, Repr

/-- `calculateLevel(score: number)`. -/
def calculateLevel (score : Int) : Level :=
  if score ≥ 900 then Level.Critical
  else if score ≥ 30 then Level.High
  else if score ≥ 10 then Level.Medium
  else Level.Low

/-! ## Concrete instances used in counterexamples and witnesses -/

/-- A date environment in which no string parses to a valid date. -/
def pdNone : String → Option Int := fun _ => none

/-- A date environment in which exactly the string `"2025-01-01"` parses,
to calendar-day number `10`. -/
def pdJan : String → Option Int := fun s => if s = "2025-01-01" then some 10 else none

/-- The task of the spec's worked example: impact 5, urgency 5, no deadline,
status Doing. -/
def specExampleTask : Task :=
  { id := "t1", createdAt := "2025-01-01T00:00:00.000Z", title := "Example",
    description := some "", area := Area.Infra, type := TaskType.Ticket,
    origin := Origin.Self, impact := 5, urgency := 5, effort := Effort.e15m,
    deadline := none, status := Status.Doing }

/-- A task with a parseable deadline, used to show date sensitivity. -/
def deadlineTask : Task :=
  { id := "t2", createdAt := "2025-01-01T00:00:00.000Z", title := "Deadline",
    description := none, area := Area.Backend, type := TaskType.Ticket,
    origin := Origin.Self, impact := 1, urgency := 1, effort := Effort.e5m,
    deadline := some "2025-01-01", status := Status.Doing }

/-! ## Claims about the scoring engine -/

/-- C1: for every task, `calculateScore` returns 0 if the task's status is
Done; otherwise impact*2 + urgency, plus (1000 - daysUntilDeadline*20) when a
deadline exists (i.e. `daysUntilDeadline` yields a value), and minus 10 when
the status is Waiting. -/
theorem calculateScore_formula (pd : String → Option Int) (today : Int) (t : Task) :
    calculateScore pd today t =
      if t.status = Status.Done then 0
      else
        t.impact * 2 + t.urgency
          + (match daysUntilDeadline pd today t.deadline with
             | some days => 1000 - days * 20
             | none => 0)
          - (if t.status = Status.Waiting then 10 else 0) := by
  unfold calculateScore
  cases hs : t.status <;>
    cases hd : daysUntilDeadline pd today t.deadline <;>
      simp [hs, hd]

/-- C2: for every integer score, `calculateLevel` returns Critical when
score ≥ 900, High when 30 ≤ score < 900, Medium when 10 ≤ score < 30, and Low
otherwise; the thresholds are the fixed constants 900, 30, 10. -/
theorem calculateLevel_thresholds (s : Int) :
    (calculateLevel s = Level.Critical ↔ 900 ≤ s)
    ∧ (calculateLevel s = Level.High ↔ 30 ≤ s ∧ s < 900)
    ∧ (calculateLevel s = Level.Medium ↔ 10 ≤ s ∧ s < 30)
    ∧ (calculateLevel s = Level.Low ↔ s < 10) := by
  unfold calculateLevel
  refine ⟨?_, ?_, ?_, ?_⟩ <;> split_ifs <;> simp_all <;> omega

/-- C3, counterexample: on the spec example task (impact 5, urgency 5, no
deadline, status Doing) the score is 15, but `calculateLevel 15` is not High
(High requires a score of at least 30). -/
theorem specExample_level_is_not_High :
    calculateScore pdNone 0 specExampleTask = 15
    ∧ calculateLevel (calculateScore pdNone 0 specExampleTask) ≠ Level.High := by
  constructor <;> decide

/-- C3, amended: for a task with impact 5, urgency 5, no deadline and status
Doing — whatever its other fields and whatever the date environment — the
score is 15 and the level of that score is Medium (not High). -/
theorem specExample_score_15_level_Medium (pd : String → Option Int) (today : Int)
    (i ca ti : String) (de : Option String) (ar : Area) (ty : TaskType)
    (og : Origin) (ef : Effort) :
    calculateScore pd today
        { id := i, createdAt := ca, title := ti, description := de, area := ar,
          type := ty, origin := og, impact := 5, urgency := 5, effort := ef,
          deadline := none, status := Status.Doing } = 15
    ∧ calculateLevel 15 = Level.Medium := by
  constructor
  · simp [calculateScore, daysUntilDeadline]
  · decide

/-- C4, counterexample: `calculateScore` is not independent of the current
date.  The task `deadlineTask` (deadline `"2025-01-01"`, day number 10)
scores 803 when today is day 0 and 823 when today is day 1, so two
evaluations on the very same task disagree once the clock moves. -/
theorem calculateScore_sensitive_to_current_date :
    calculateScore pdJan 0 deadlineTask ≠ calculateScore pdJan 1 deadlineTask := by
  decide

/-- C4, amended: at any fixed current date (date environment `pd`, `today`),
`calculateScore` is a function of exactly the four fields impact, urgency,
deadline, status: two tasks agreeing on those four fields get equal scores,
regardless of every other field. -/
theorem calculateScore_only_four_fields_and_date (pd : String → Option Int)
    (today : Int) (t u : Task)
    (h1 : t.impact = u.impact) (h2 : t.urgency = u.urgency)
    (h3 : t.deadline = u.deadline) (h4 : t.status = u.status) :
    calculateScore pd today t = calculateScore pd today u := by
  unfold calculateScore
  rw [h1, h2, h3, h4]

/-- Witness for C4's amended theorem: two concrete tasks differing in id and
title but agreeing on the four scoring fields get the same score. -/
theorem calculateScore_only_four_fields_and_date_witness :
    calculateScore pdNone 0 specExampleTask =
      calculateScore pdNone 0 { specExampleTask with id := "zz", title := "Other" } :=
  calculateScore_only_four_fields_and_date pdNone 0 _ _ rfl rfl rfl rfl

/-- C10: a task whose deadline is absent or unparseable
(`daysUntilDeadline` is `null`) and whose impact and urgency are in the
declared range 1..5 scores between -7 and 15 when not Done, and its level is
never Critical (for Done tasks the score is 0, also below the 900 Critical
threshold). -/
theorem no_deadline_score_bounds_not_critical (pd : String → Option Int)
    (today : Int) (t : Task)
    (hi1 : 1 ≤ t.impact) (hi2 : t.impact ≤ 5)
    (hu1 : 1 ≤ t.urgency) (hu2 : t.urgency ≤ 5)
    (hd : daysUntilDeadline pd today t.deadline = none) :
    (t.status ≠ Status.Done →
      -7 ≤ calculateScore pd today t ∧ calculateScore pd today t ≤ 15)
    ∧ calculateLevel (calculateScore pd today t) ≠ Level.Critical := by
  have hscore : calculateScore pd today t =
      if t.status = Status.Done then 0
      else if t.status = Status.Waiting then t.impact * 2 + t.urgency - 10
      else t.impact * 2 + t.urgency := by
    unfold calculateScore
    cases hs : t.status <;> simp [hs, hd]
  have hb : -7 ≤ calculateScore pd today t ∧ calculateScore pd today t ≤ 15 := by
    rw [hscore]; split_ifs <;> omega
  refine ⟨fun _ => hb, ?_⟩
  unfold calculateLevel
  split_ifs <;> first | (exfalso; omega) | decide

/-- Witness for C10 at the concrete example task. -/
theorem no_deadline_score_bounds_not_critical_witness :
    (specExampleTask.status ≠ Status.Done →
      -7 ≤ calculateScore pdNone 0 specExampleTask
        ∧ calculateScore pdNone 0 specExampleTask ≤ 15)
    ∧ calculateLevel (calculateScore pdNone 0 specExampleTask) ≠ Level.Critical :=
  no_deadline_score_bounds_not_critical pdNone 0 specExampleTask
    (by decide) (by decide) (by decide) (by decide) (by decide)

/-! ## The view pipeline's sort stage

`filteredSortedTasks` first filters the list and then sorts it with an
explicit comparator over `{ t, i }` pairs (task with its position in the
filtered list).  The claims under verification concern the sort, so the sort
stage is embedded as a function of an arbitrary (already filtered) task list.
`Array.prototype.sort` with a consistent comparator produces the unique
ordering in which the comparator is nonpositive on every pair in order; the
comparator here never ties on distinct elements (ties fall back to the index
`a.i - b.i`), so `List.mergeSort` over `comparator ≤ 0` is an exact model. -/

/-- Enum value strings, as compared by `localeCompare` in the comparator. -/
def Area.toStr : Area → String
  | .Infra => "Infra"
  | .Backend => "Backend"
  | .DevOps => "DevOps"
  | .Certificates => "Certificates"
  | .DNS => "DNS"
  | .Monitoring => "Monitoring"
  | .Research => "Research"
  | .Personal => "Personal"

def TaskType.toStr : TaskType → String
  | .Ticket => "Ticket"
  | .Microtask => "Microtask"
  | .Investigation => "Investigation"
  | .FollowUp => "Follow-up"
  | .Meeting => "Meeting"

def Effort.toStr : Effort → String
  | .e5m => "5m"
  | .e15m => "15m"
  | .e30m => "30m"
  | .e1hPlus => "1h+"
  | .Research => "Research"

def Status.toStr : Status → String
  | .Inbox => "Inbox"
  | .Doing => "Doing"
  | .Waiting => "Waiting"
  | .Done => "Done"

/-- The column keys accepted by `toggleSort`; `other` stands for any other
string, which the comparator's `default` case treats like `score`. -/
inductive SortKey
  | title | area | type | effort | status | impact | urgency
  | deadline | daysLeft | score | other
deriving DecidableEq, Repr

inductive SortDir
  | asc | desc
deriving DecidableEq, Repr

/-- The comparison value `av`/`bv` computed by the comparator's `switch`:
a string, a finite number, or `Number.POSITIVE_INFINITY`. -/
inductive SortVal
  | str (s : String)
  | num (n : Int)
  | inf
deriving DecidableEq, Repr

/-- The `switch (sortBy)` block assigning `av` (resp. `bv`). -/
def keyVal (pd : String → Option Int) (today : Int) (key : SortKey) (t : Task) :
    SortVal :=
  match key with
  | SortKey.title => SortVal.str t.title.toLower
  | SortKey.area => SortVal.str t.area.toStr
  | SortKey.type => SortVal.str t.type.toStr
  | SortKey.effort => SortVal.str t.effort.toStr
  | SortKey.status => SortVal.str t.status.toStr
  | SortKey.impact => SortVal.num t.impact
  | SortKey.urgency => SortVal.num t.urgency
  | SortKey.deadline =>
    match daysUntilDeadline pd today t.deadline with
    | some d => SortVal.num d
    | none => SortVal.inf
  | SortKey.daysLeft =>
    match daysUntilDeadline pd today t.deadline with
    | some d => SortVal.num d
    | none => SortVal.inf
  | SortKey.score => SortVal.num (calculateScore pd today t)
  | SortKey.other => SortVal.num (calculateScore pd today t)

/-- Numeric view of a comparison value (`const na = typeof av === "number" ?
av : Number(av ?? 0)`): `none` models `Number.POSITIVE_INFINITY`.  The `str`
case is unreachable in the comparator because both compared values are
produced by the same sort key, which yields either strings on both sides
(taken by the string branch) or numbers on both sides. -/
def extNum : SortVal → Option Int
  | SortVal.num n => some n
  | SortVal.inf => none
  | SortVal.str _ => some 0

/-- Sign-faithful model of `na - nb` on IEEE numbers where `none` is
`+Infinity`; only the sign of a comparator result is observable by the sort,
and the comparator only subtracts when `na ≠ nb`, so the infinite-minus-
infinite `NaN` case never arises. -/
def extSub : Option Int → Option Int → Int
  | some x, some y => x - y
  | none, some _ => 1
  | some _, none => -1
  | none, none => 0

/-- The string branch of the comparator: `av.localeCompare(bv)`, index
tie-break, direction applied to a non-tie. -/
def strCompare (strCmp : String → String → Int) (dir : SortDir)
    (sa sb : String) (ai bi : Nat) : Int :=
  let cmp := strCmp sa sb
  if cmp = 0 then (ai : Int) - (bi : Int)
  else if dir = SortDir.asc then cmp else -cmp

/-- The numeric branch of the comparator: equality goes to the index
tie-break, otherwise `na - nb` (direction-adjusted). -/
def numCompare (dir : SortDir) (na nb : Option Int) (ai bi : Nat) : Int :=
  if na = nb then (ai : Int) - (bi : Int)
  else if dir = SortDir.asc then extSub na nb else extSub nb na

/-- Tail of the comparator after `av`/`bv` are computed: the
`typeof av === "string" && typeof bv === "string"` test selects the
`localeCompare` branch, everything else is compared numerically. -/
def compareVals (strCmp : String → String → Int) (dir : SortDir)
    (av bv : SortVal) (ai bi : Nat) : Int :=
  match av, bv with
  | SortVal.str sa, SortVal.str sb => strCompare strCmp dir sa sb ai bi
  | _, _ => numCompare dir (extNum av) (extNum bv) ai bi

/-- The comparator over `{ t, i }` pairs (task, original index in the
filtered list).  `sortBy = none` is the default: score descending, ties by
index. -/
def comparator (strCmp : String → String → Int) (pd : String → Option Int)
    (today : Int) (sortBy : Option SortKey) (dir : SortDir)
    (a b : Task × Nat) : Int :=
  match sortBy with
  | none =>
    let sa := calculateScore pd today a.1
    let sb := calculateScore pd today b.1
    if sb ≠ sa then sb - sa else (a.2 : Int) - (b.2 : Int)
  | some key =>
    compareVals strCmp dir (keyVal pd today key a.1) (keyVal pd today key b.1) a.2 b.2

/-- `const withIndex = list.map((t, i) => ({ t, i }))`. -/
def withIndex (ts : List Task) : List (Task × Nat) :=
  ts.enum.map (fun p => (p.2, p.1))

/-- `withIndex.sort(comparator)`, before the final projection. -/
def sortedWithIndex (strCmp : String → String → Int) (pd : String → Option Int)
    (today : Int) (sortBy : Option SortKey) (dir : SortDir)
    (ts : List Task) : List (Task × Nat) :=
  (withIndex ts).mergeSort
    (fun a b => decide (comparator strCmp pd today sortBy dir a b ≤ 0))

/-- The sort stage of `filteredSortedTasks`:
`withIndex.sort(comparator); return withIndex.map(x => x.t)`. -/
def filteredSortedTasks (strCmp : String → String → Int) (pd : String → Option Int)
    (today : Int) (sortBy : Option SortKey) (dir : SortDir)
    (ts : List Task) : List Task :=
  (sortedWithIndex strCmp pd today sortBy dir ts).map Prod.fst

/-- A tie between two comparison values: `localeCompare` returns 0 for two
strings, the numeric views are equal otherwise. -/
def valTie (strCmp : String → String → Int) : SortVal → SortVal → Prop
  | SortVal.str s1, SortVal.str s2 => strCmp s1 s2 = 0
  | v1, v2 => extNum v1 = extNum v2

/-- Two tasks "compare equal" under a sort configuration: the comparator's
key comparison (before the index tie-break) is a tie. -/
def sameKey (strCmp : String → String → Int) (pd : String → Option Int)
    (today : Int) (sortBy : Option SortKey) (t u : Task) : Prop :=
  match sortBy with
  | none => calculateScore pd today t = calculateScore pd today u
  | some key => valTie strCmp (keyVal pd today key t) (keyVal pd today key u)

/-! ## Comparator properties

`localeCompare` is locale-dependent, so it is an abstract `strCmp` assumed to
be a consistent comparison: sign-antisymmetric and transitive.  These are the
guarantees ECMA-402 gives for `String.prototype.localeCompare` (it induces a
total preorder on strings). -/

/-- Sign antisymmetry of a raw comparison function. -/
def StrCmpAnti (strCmp : String → String → Int) : Prop :=
  ∀ s1 s2, strCmp s1 s2 ≤ 0 ↔ 0 ≤ strCmp s2 s1

/-- Transitivity of "does not come after" for a raw comparison function. -/
def StrCmpTrans (strCmp : String → String → Int) : Prop :=
  ∀ s1 s2 s3, strCmp s1 s2 ≤ 0 → strCmp s2 s3 ≤ 0 → strCmp s1 s3 ≤ 0

theorem numCompare_anti (dir : SortDir) (na nb : Option Int) (ai bi : Nat) :
    numCompare dir na nb ai bi ≤ 0 ↔ 0 ≤ numCompare dir nb na bi ai := by
  rcases na with _ | x <;> rcases nb with _ | y <;> rcases dir <;>
    simp [numCompare, extSub] <;> (try split_ifs) <;> omega

theorem numCompare_trans (dir : SortDir) (na nb nc : Option Int) (ai bi ci : Nat)
    (h1 : numCompare dir na nb ai bi ≤ 0) (h2 : numCompare dir nb nc bi ci ≤ 0) :
    numCompare dir na nc ai ci ≤ 0 := by
  rcases na with _ | x <;> rcases nb with _ | y <;> rcases nc with _ | z <;>
    rcases dir <;> simp_all [numCompare, extSub] <;>
      (try split_ifs at h1 h2 ⊢) <;> omega

theorem strCompare_anti {strCmp : String → String → Int} (ha : StrCmpAnti strCmp)
    (dir : SortDir) (sa sb : String) (ai bi : Nat) :
    strCompare strCmp dir sa sb ai bi ≤ 0 ↔ 0 ≤ strCompare strCmp dir sb sa bi ai := by
  have h1 := ha sa sb
  have h2 := ha sb sa
  unfold strCompare
  rcases dir <;> split_ifs <;> simp_all <;> omega

theorem strCompare_trans {strCmp : String → String → Int} (ha : StrCmpAnti strCmp)
    (ht : StrCmpTrans strCmp) (dir : SortDir) (sa sb sc : String) (ai bi ci : Nat)
    (h1 : strCompare strCmp dir sa sb ai bi ≤ 0)
    (h2 : strCompare strCmp dir sb sc bi ci ≤ 0) :
    strCompare strCmp dir sa sc ai ci ≤ 0 := by
  have a12 := ha sa sb
  have a21 := ha sb sa
  have a13 := ha sa sc
  have a31 := ha sc sa
  have a23 := ha sb sc
  have a32 := ha sc sb
  have t123 := ht sa sb sc
  have t132 := ht sa sc sb
  have t213 := ht sb sa sc
  have t231 := ht sb sc sa
  have t312 := ht sc sa sb
  have t321 := ht sc sb sa
  unfold strCompare at h1 h2 ⊢
  rcases dir <;> split_ifs at h1 h2 ⊢ <;> simp_all <;> omega

theorem comparator_anti {strCmp : String → String → Int} (ha : StrCmpAnti strCmp)
    (pd : String → Option Int) (today : Int) (sortBy : Option SortKey)
    (dir : SortDir) (a b : Task × Nat) :
    comparator strCmp pd today sortBy dir a b ≤ 0 ↔
      0 ≤ comparator strCmp pd today sortBy dir b a := by
  cases sortBy with
  | none =>
    simp only [comparator]
    split_ifs <;> omega
  | some key =>
    simp only [comparator, compareVals]
    cases hA : keyVal pd today key a.1 <;> cases hB : keyVal pd today key b.1 <;>
      first
        | exact strCompare_anti ha dir _ _ _ _
        | exact numCompare_anti dir _ _ _ _

theorem comparator_total {strCmp : String → String → Int} (ha : StrCmpAnti strCmp)
    (pd : String → Option Int) (today : Int) (sortBy : Option SortKey)
    (dir : SortDir) (a b : Task × Nat) :
    comparator strCmp pd today sortBy dir a b ≤ 0
    ∨ comparator strCmp pd today sortBy dir b a ≤ 0 := by
  by_cases h : comparator strCmp pd today sortBy dir a b ≤ 0
  · exact Or.inl h
  · exact Or.inr ((comparator_anti ha pd today sortBy dir b a).mpr (by omega))

theorem comparator_trans {strCmp : String → String → Int} (ha : StrCmpAnti strCmp)
    (ht : StrCmpTrans strCmp) (pd : String → Option Int) (today : Int)
    (sortBy : Option SortKey) (dir : SortDir) (a b c : Task × Nat)
    (h1 : comparator strCmp pd today sortBy dir a b ≤ 0)
    (h2 : comparator strCmp pd today sortBy dir b c ≤ 0) :
    comparator strCmp pd today sortBy dir a c ≤ 0 := by
  cases sortBy with
  | none =>
    simp only [comparator] at h1 h2 ⊢
    split_ifs at h1 h2 ⊢ <;> omega
  | some key =>
    simp only [comparator, compareVals] at h1 h2 ⊢
    cases key <;>
      simp only [keyVal] at h1 h2 ⊢ <;>
        first
          | exact strCompare_trans ha ht dir _ _ _ _ _ _ h1 h2
          | exact numCompare_trans dir _ _ _ _ _ _ h1 h2
          | (rcases hA : daysUntilDeadline pd today a.1.deadline with _ | da <;>
             rcases hB : daysUntilDeadline pd today b.1.deadline with _ | db <;>
             rcases hC : daysUntilDeadline pd today c.1.deadline with _ | dc <;>
               simp_all only [] <;>
                 exact numCompare_trans dir _ _ _ _ _ _ h1 h2)

theorem compareVals_tie {strCmp : String → String → Int} (dir : SortDir)
    (av bv : SortVal) (ai bi : Nat)
    (hle : compareVals strCmp dir av bv ai bi ≤ 0)
    (htie : valTie strCmp av bv) :
    (ai : Int) ≤ bi := by
  cases av <;> cases bv <;>
    simp only [compareVals, strCompare, numCompare, extNum, valTie] at hle htie <;>
      rw [if_pos htie] at hle <;> omega

/-- A comparator result that is nonpositive on a key tie comes from the
index tie-break, so the original indices are in order. -/
theorem comparator_tie {strCmp : String → String → Int} (pd : String → Option Int)
    (today : Int) (sortBy : Option SortKey) (dir : SortDir) (a b : Task × Nat)
    (h1 : comparator strCmp pd today sortBy dir a b ≤ 0)
    (h2 : sameKey strCmp pd today sortBy a.1 b.1) :
    (a.2 : Int) ≤ b.2 := by
  cases sortBy with
  | none =>
    simp only [comparator] at h1
    simp only [sameKey] at h2
    split_ifs at h1 <;> omega
  | some key =>
    simp only [comparator] at h1
    simp only [sameKey] at h2
    exact compareVals_tie dir _ _ _ _ h1 h2

/-- The indices attached by `withIndex` are the positions `0..length-1`. -/
theorem withIndex_map_snd (ts : List Task) :
    (withIndex ts).map Prod.snd = List.range ts.length := by
  simp only [withIndex, List.map_map]
  have : (Prod.snd ∘ fun p : Nat × Task => (p.2, p.1)) = Prod.fst := rfl
  rw [this, List.enum_map_fst]

/-- C5: the view pipeline's sort is stable for every task list and every sort
configuration.  The sorted indexed list is a permutation of the indexed input
(and the output task list is its projection); any two tasks that compare
equal under the active sort key appear in increasing original (insertion)
position — so ties are broken only by insertion order, never by identifier —
and with no sort key chosen the output is ordered by descending score with
ties in insertion order. -/
theorem sort_stable_and_default_by_score (strCmp : String → String → Int)
    (pd : String → Option Int) (today : Int) (sortBy : Option SortKey)
    (dir : SortDir) (ts : List Task)
    (ha : StrCmpAnti strCmp) (ht : StrCmpTrans strCmp) :
    filteredSortedTasks strCmp pd today sortBy dir ts =
        (sortedWithIndex strCmp pd today sortBy dir ts).map Prod.fst
    ∧ (sortedWithIndex strCmp pd today sortBy dir ts).Perm (withIndex ts)
    ∧ (sortedWithIndex strCmp pd today sortBy dir ts).Pairwise
        (fun a b => sameKey strCmp pd today sortBy a.1 b.1 → a.2 < b.2)
    ∧ (sortBy = none →
        (sortedWithIndex strCmp pd today sortBy dir ts).Pairwise
          (fun a b =>
            calculateScore pd today b.1 ≤ calculateScore pd today a.1
            ∧ (calculateScore pd today a.1 = calculateScore pd today b.1 →
                a.2 < b.2))) := by
  have hperm : (sortedWithIndex strCmp pd today sortBy dir ts).Perm (withIndex ts) :=
    List.mergeSort_perm (withIndex ts) _
  have hsorted :
      (sortedWithIndex strCmp pd today sortBy dir ts).Pairwise
        (fun a b => comparator strCmp pd today sortBy dir a b ≤ 0) := by
    have h := @List.sorted_mergeSort (Task × Nat)
      (fun a b => decide (comparator strCmp pd today sortBy dir a b ≤ 0))
      (fun a b c h1 h2 => by
        simp only [decide_eq_true_eq] at *
        exact comparator_trans ha ht pd today sortBy dir a b c h1 h2)
      (fun a b => by
        simp only [Bool.or_eq_true, decide_eq_true_eq]
        exact comparator_total ha pd today sortBy dir a b)
      (withIndex ts)
    exact h.imp (fun hab => by simpa using hab)
  have hne : (sortedWithIndex strCmp pd today sortBy dir ts).Pairwise
      (fun a b => a.2 ≠ b.2) := by
    have h1 : ((sortedWithIndex strCmp pd today sortBy dir ts).map Prod.snd).Nodup := by
      rw [(hperm.map Prod.snd).nodup_iff, withIndex_map_snd]
      exact List.nodup_range _
    exact List.pairwise_map.mp h1
  refine ⟨rfl, hperm, ?_, ?_⟩
  · refine (hsorted.and hne).imp ?_
    intro a b hab hsk
    have := comparator_tie pd today sortBy dir a b hab.1 hsk
    have h2 := hab.2
    omega
  · rintro rfl
    refine (hsorted.and hne).imp ?_
    intro a b hab
    have hle := hab.1
    have hneq := hab.2
    simp only [comparator] at hle
    constructor
    · split_ifs at hle <;> omega
    · intro hs
      split_ifs at hle <;> omega

/-- The comparison that ties every pair of strings; it satisfies the
comparator axioms and instantiates the abstract locale comparison in
witnesses. -/
def strCmpZero : String → String → Int := fun _ _ => 0

/-- Witness for C5 on a concrete two-task list with the default sort. -/
theorem sort_stable_and_default_by_score_witness :
    (sortedWithIndex strCmpZero pdNone 0 none SortDir.desc
        [specExampleTask, deadlineTask]).Perm
          (withIndex [specExampleTask, deadlineTask])
    ∧ (sortedWithIndex strCmpZero pdNone 0 none SortDir.desc
        [specExampleTask, deadlineTask]).Pairwise
          (fun a b => sameKey strCmpZero pdNone 0 none a.1 b.1 → a.2 < b.2)
    ∧ (sortedWithIndex strCmpZero pdNone 0 none SortDir.desc
        [specExampleTask, deadlineTask]).Pairwise
          (fun a b =>
            calculateScore pdNone 0 b.1 ≤ calculateScore pdNone 0 a.1
            ∧ (calculateScore pdNone 0 a.1 = calculateScore pdNone 0 b.1 →
                a.2 < b.2)) := by
  have h := sort_stable_and_default_by_score strCmpZero pdNone 0 none SortDir.desc
    [specExampleTask, deadlineTask] (fun s1 s2 => Iff.rfl) (fun s1 s2 s3 h1 h2 => h1)
  exact ⟨h.2.1, h.2.2.1, h.2.2.2 rfl⟩

/-- For the deadline and days-left keys the comparator is exactly the numeric
comparison of `daysUntilDeadline` values, where a missing value is
`+Infinity`. -/
theorem comparator_deadline_eq (strCmp : String → String → Int)
    (pd : String → Option Int) (today : Int) (key : SortKey) (dir : SortDir)
    (hkey : key = SortKey.deadline ∨ key = SortKey.daysLeft)
    (a b : Task × Nat) :
    comparator strCmp pd today (some key) dir a b =
      numCompare dir (daysUntilDeadline pd today a.1.deadline)
        (daysUntilDeadline pd today b.1.deadline) a.2 b.2 := by
  rcases hkey with rfl | rfl <;>
    rcases hA : daysUntilDeadline pd today a.1.deadline with _ | da <;>
      rcases hB : daysUntilDeadline pd today b.1.deadline with _ | db <;>
        simp [comparator, compareVals, keyVal, extNum, hA, hB]

/-- C6: under the deadline or days-left sort key, a task with no
(`null`) `daysUntilDeadline` has the comparison value positive infinity
(`SortVal.inf`), and in the sorted output all such tasks come after every
dated task when ascending and before every dated task when descending. -/
theorem missing_deadline_sorts_far_future (strCmp : String → String → Int)
    (pd : String → Option Int) (today : Int) (dir : SortDir) (ts : List Task)
    (key : SortKey) (hkey : key = SortKey.deadline ∨ key = SortKey.daysLeft) :
    (∀ t : Task, keyVal pd today key t = SortVal.inf ↔
        daysUntilDeadline pd today t.deadline = none)
    ∧ (dir = SortDir.asc →
        (sortedWithIndex strCmp pd today (some key) dir ts).Pairwise
          (fun a b => daysUntilDeadline pd today a.1.deadline = none →
              daysUntilDeadline pd today b.1.deadline = none))
    ∧ (dir = SortDir.desc →
        (sortedWithIndex strCmp pd today (some key) dir ts).Pairwise
          (fun a b => daysUntilDeadline pd today b.1.deadline = none →
              daysUntilDeadline pd today a.1.deadline = none)) := by
  have hsorted :
      (sortedWithIndex strCmp pd today (some key) dir ts).Pairwise
        (fun a b => comparator strCmp pd today (some key) dir a b ≤ 0) := by
    have h := @List.sorted_mergeSort (Task × Nat)
      (fun a b => decide (comparator strCmp pd today (some key) dir a b ≤ 0))
      (fun a b c h1 h2 => by
        simp only [decide_eq_true_eq] at *
        rw [comparator_deadline_eq strCmp pd today key dir hkey] at h1 h2 ⊢
        exact numCompare_trans dir _ _ _ _ _ _ h1 h2)
      (fun a b => by
        simp only [Bool.or_eq_true, decide_eq_true_eq]
        rw [comparator_deadline_eq strCmp pd today key dir hkey,
            comparator_deadline_eq strCmp pd today key dir hkey]
        by_cases h : numCompare dir (daysUntilDeadline pd today a.1.deadline)
            (daysUntilDeadline pd today b.1.deadline) a.2 b.2 ≤ 0
        · exact Or.inl h
        · exact Or.inr ((numCompare_anti dir _ _ _ _).mpr (by omega)))
      (withIndex ts)
    exact h.imp (fun hab => by simpa using hab)
  refine ⟨?_, ?_, ?_⟩
  · intro t
    rcases hkey with rfl | rfl <;>
      rcases hD : daysUntilDeadline pd today t.deadline with _ | d <;>
        simp [keyVal, hD]
  · rintro rfl
    refine hsorted.imp ?_
    intro a b hle hA
    rw [comparator_deadline_eq strCmp pd today key SortDir.asc hkey, hA] at hle
    rcases hB : daysUntilDeadline pd today b.1.deadline with _ | db
    · rfl
    · rw [hB] at hle
      simp [numCompare, extSub] at hle
  · rintro rfl
    refine hsorted.imp ?_
    intro a b hle hB
    rw [comparator_deadline_eq strCmp pd today key SortDir.desc hkey, hB] at hle
    rcases hA : daysUntilDeadline pd today a.1.deadline with _ | da
    · rfl
    · rw [hA] at hle
      simp [numCompare, extSub] at hle

/-- Witness for C6: deadline key, ascending, on a concrete two-task list
containing one dated and one undated task. -/
theorem missing_deadline_sorts_far_future_witness :
    keyVal pdJan 0 SortKey.deadline specExampleTask = SortVal.inf
    ∧ (sortedWithIndex strCmpZero pdJan 0 (some SortKey.deadline) SortDir.asc
        [specExampleTask, deadlineTask]).Pairwise
          (fun a b => daysUntilDeadline pdJan 0 a.1.deadline = none →
              daysUntilDeadline pdJan 0 b.1.deadline = none) :=
  ⟨((missing_deadline_sorts_far_future strCmpZero pdJan 0 SortDir.asc
      [specExampleTask, deadlineTask] SortKey.deadline (Or.inl rfl)).1
        specExampleTask).mpr rfl,
   (missing_deadline_sorts_far_future strCmpZero pdJan 0 SortDir.asc
      [specExampleTask, deadlineTask] SortKey.deadline (Or.inl rfl)).2.1 rfl⟩

/-! ## Task store

The store is the `tasks` React state plus the `localStorage` slot under the
fixed key `dexbrain.tasks`.  `JSON.stringify` is abstracted as
`ser : List Task → String` and `JSON.parse` (composed with the
`Array.isArray` check and the unvalidated `as Task[]` cast) as
`deser : String → Option (List Task)`, returning `none` when the parse
throws or the parsed value is not an array. -/

/-- `String.prototype.trim()`: strip leading and trailing whitespace.
Defined over the character list so that it evaluates by kernel reduction
(the library's `String.trim` is well-founded recursion and does not). -/
def jsTrim (s : String) : String :=
  String.mk
    (((s.data.dropWhile Char.isWhitespace).reverse.dropWhile Char.isWhitespace).reverse)

/-- App state relevant to persistence. -/
structure StoreState where
  tasks : List Task
  stored : Option String
deriving Repr

/-- The `{ ...t, title: ..., ..., status: form.status }` spread of the edit
branch of `handleSubmit`: every submitted field replaces the old one, while
`id` and `createdAt` are preserved by the spread.  `form.description ?
form.description : ""` and `form.deadline ? form.deadline : undefined` make
the falsy empty string explicit. -/
def applyForm (t : Task) (form : TaskForm) : Task :=
  { t with
    title := jsTrim form.title,
    description := some (if form.description = "" then "" else form.description),
    area := form.area,
    type := form.type,
    origin := form.origin,
    impact := form.impact,
    urgency := form.urgency,
    effort := form.effort,
    deadline := if form.deadline = "" then none else some form.deadline,
    status := form.status }

/-- The new task built by the create branch of `handleSubmit`; `newId` models
`crypto.randomUUID()` and `newCreatedAt` models `new Date().toISOString()`. -/
def newTaskFromForm (newId newCreatedAt : String) (form : TaskForm) : Task :=
  { id := newId,
    createdAt := newCreatedAt,
    title := jsTrim form.title,
    description := some (if form.description = "" then "" else form.description),
    area := form.area,
    type := form.type,
    origin := form.origin,
    impact := form.impact,
    urgency := form.urgency,
    effort := form.effort,
    deadline := if form.deadline = "" then none else some form.deadline,
    status := form.status }

/-- `handleSubmit`: a blank (trimmed) title is rejected as a no-op; otherwise
the edit branch maps `applyForm` over the task with the editing id, and the
create branch prepends `newTaskFromForm`; either way the full updated list is
serialized and stored synchronously. -/
def handleSubmit (ser : List Task → String) (s : StoreState)
    (editing : Option String) (form : TaskForm)
    (newId newCreatedAt : String) : StoreState :=
  if jsTrim form.title = "" then s
  else
    match editing with
    | some eid =>
      let updatedTasks := s.tasks.map fun t => if t.id = eid then applyForm t form else t
      { tasks := updatedTasks, stored := some (ser updatedTasks) }
    | none =>
      let nextTasks := newTaskFromForm newId newCreatedAt form :: s.tasks
      { tasks := nextTasks, stored := some (ser nextTasks) }

/-- `updateTaskStatus(id, status)`: the inline status change; only the
`status` field of the matching task is replaced, and the updated list is
persisted synchronously. -/
def updateTaskStatus (ser : List Task → String) (s : StoreState)
    (id : String) (status : Status) : StoreState :=
  let updated := s.tasks.map fun t => if t.id = id then { t with status := status } else t
  { tasks := updated, stored := some (ser updated) }

/-- The load effect: `!stored` (slot absent, or the falsy empty string)
keeps the initial empty list; a parse failure is swallowed by `try`/`catch`
and a non-array result fails the `Array.isArray` guard, both leaving the
empty list.  The function is total: no stored string raises. -/
def loadTasks (deser : String → Option (List Task)) (stored : Option String) :
    List Task :=
  match stored with
  | none => []
  | some s =>
    if s = "" then []
    else
      match deser s with
      | some parsed => parsed
      | none => []

/-! ## Claims about the task store -/

/-- C7: updating an existing task — by edit-form submission (`handleSubmit`
with an editing id and a nonblank title) or by inline status change
(`updateTaskStatus`) — keeps the length and positions of the list; the task
at each position is unchanged unless its id matches, in which case the edit
replaces exactly the submitted fields while `id` and `createdAt` are
unchanged, and the status change replaces exactly `status`. -/
theorem update_preserves_identity_and_frame (ser : List Task → String)
    (s : StoreState) (eid : String) (form : TaskForm) (nid nca : String)
    (st : Status)
    (_hnodup : (s.tasks.map Task.id).Nodup) (htitle : jsTrim form.title ≠ "") :
    (handleSubmit ser s (some eid) form nid nca).tasks.length = s.tasks.length
    ∧ (∀ i (h : i < s.tasks.length),
        (handleSubmit ser s (some eid) form nid nca).tasks[i]? =
          some (if (s.tasks.get ⟨i, h⟩).id = eid
                then applyForm (s.tasks.get ⟨i, h⟩) form
                else s.tasks.get ⟨i, h⟩))
    ∧ (∀ t : Task,
        (applyForm t form).id = t.id
        ∧ (applyForm t form).createdAt = t.createdAt
        ∧ (applyForm t form).title = jsTrim form.title
        ∧ (applyForm t form).description =
            some (if form.description = "" then "" else form.description)
        ∧ (applyForm t form).area = form.area
        ∧ (applyForm t form).type = form.type
        ∧ (applyForm t form).origin = form.origin
        ∧ (applyForm t form).impact = form.impact
        ∧ (applyForm t form).urgency = form.urgency
        ∧ (applyForm t form).effort = form.effort
        ∧ (applyForm t form).deadline =
            (if form.deadline = "" then none else some form.deadline)
        ∧ (applyForm t form).status = form.status)
    ∧ (updateTaskStatus ser s eid st).tasks.length = s.tasks.length
    ∧ (∀ i (h : i < s.tasks.length),
        (updateTaskStatus ser s eid st).tasks[i]? =
          some (if (s.tasks.get ⟨i, h⟩).id = eid
                then { s.tasks.get ⟨i, h⟩ with status := st }
                else s.tasks.get ⟨i, h⟩)) := by
  refine ⟨?_, ?_, ?_, ?_, ?_⟩
  · simp [handleSubmit, htitle]
  · intro i h
    simp [handleSubmit, htitle, List.getElem?_map, List.getElem?_eq_getElem h,
      List.get_eq_getElem]
  · intro t
    exact ⟨rfl, rfl, rfl, rfl, rfl, rfl, rfl, rfl, rfl, rfl, rfl, rfl⟩
  · simp [updateTaskStatus]
  · intro i h
    simp [updateTaskStatus, List.getElem?_map, List.getElem?_eq_getElem h,
      List.get_eq_getElem]

/-- Concrete serializer and store state for witnesses. -/
def serBlob : List Task → String := fun _ => "blob"

def exState : StoreState := { tasks := [deadlineTask, specExampleTask], stored := none }

/-- Concrete submitted form for witnesses. -/
def exForm : TaskForm :=
  { title := "Updated", description := "", area := Area.DNS,
    type := TaskType.Meeting, origin := Origin.Boss, impact := 2, urgency := 4,
    effort := Effort.e30m, deadline := "2025-02-02", status := Status.Waiting }

/-- Witness for C7 on a concrete two-task store. -/
theorem update_preserves_identity_and_frame_witness :
    (handleSubmit serBlob exState (some "t1") exForm "n" "c").tasks.length
        = exState.tasks.length
    ∧ (handleSubmit serBlob exState (some "t1") exForm "n" "c").tasks[0]? =
        some (if (exState.tasks.get ⟨0, by decide⟩).id = "t1"
              then applyForm (exState.tasks.get ⟨0, by decide⟩) exForm
              else exState.tasks.get ⟨0, by decide⟩)
    ∧ (applyForm specExampleTask exForm).id = specExampleTask.id
    ∧ (applyForm specExampleTask exForm).createdAt = specExampleTask.createdAt := by
  have h := update_preserves_identity_and_frame serBlob exState "t1" exForm "n" "c"
    Status.Done (by decide) (by decide)
  exact ⟨h.1, h.2.1 0 (by decide), (h.2.2.1 specExampleTask).1,
    (h.2.2.1 specExampleTask).2.1⟩

/-- C8: create (the `handleSubmit` create branch, with a nonblank title)
prepends the new task and synchronously persists the serialized full list;
reloading from the persisted blob reproduces the in-memory list.  The
platform facts about JSON used are hypotheses: `hrt` (parse of stringify
round-trips on the persisted list) and `hser` (`JSON.stringify` of an array
is never the empty string). -/
theorem create_persist_reload_roundtrip (ser : List Task → String)
    (deser : String → Option (List Task)) (s : StoreState) (form : TaskForm)
    (nid nca : String) (htitle : jsTrim form.title ≠ "")
    (hrt : deser (ser (newTaskFromForm nid nca form :: s.tasks)) =
        some (newTaskFromForm nid nca form :: s.tasks))
    (hser : ser (newTaskFromForm nid nca form :: s.tasks) ≠ "") :
    (handleSubmit ser s none form nid nca).tasks =
        newTaskFromForm nid nca form :: s.tasks
    ∧ (handleSubmit ser s none form nid nca).stored =
        some (ser (newTaskFromForm nid nca form :: s.tasks))
    ∧ loadTasks deser (handleSubmit ser s none form nid nca).stored =
        (handleSubmit ser s none form nid nca).tasks := by
  refine ⟨?_, ?_, ?_⟩ <;>
    simp [handleSubmit, htitle, loadTasks, hser, hrt]

/-- The list produced by the witness create. -/
def createdList : List Task := newTaskFromForm "n" "c" exForm :: exState.tasks

/-- A deserializer inverting `serBlob` at `createdList`. -/
def deserBlob : String → Option (List Task) :=
  fun b => if b = "blob" then some createdList else none

/-- Witness for C8 with a concrete serializer/deserializer pair that
round-trips on the created list. -/
theorem create_persist_reload_roundtrip_witness :
    (handleSubmit serBlob exState none exForm "n" "c").tasks = createdList
    ∧ (handleSubmit serBlob exState none exForm "n" "c").stored =
        some (serBlob createdList)
    ∧ loadTasks deserBlob (handleSubmit serBlob exState none exForm "n" "c").stored =
        (handleSubmit serBlob exState none exForm "n" "c").tasks :=
  create_persist_reload_roundtrip serBlob deserBlob exState exForm "n" "c"
    (by decide) (by decide) (by decide)

/-- C9: on startup, an absent slot (and the falsy empty string) loads the
empty list, any blob the deserializer rejects (parse throws, or not an
array) loads the empty list, and loading is total — it produces a list for
every stored value, never an error. -/
theorem load_absent_or_unparseable_empty (deser : String → Option (List Task)) :
    loadTasks deser none = []
    ∧ loadTasks deser (some "") = []
    ∧ (∀ s : String, deser s = none → loadTasks deser (some s) = [])
    ∧ (∀ stored : Option String, ∃ l : List Task, loadTasks deser stored = l) := by
  refine ⟨rfl, rfl, fun s hs => ?_, fun stored => ⟨_, rfl⟩⟩
  by_cases he : s = "" <;> simp [loadTasks, he, hs]

/-- A deserializer rejecting every blob, used as witness instance. -/
def deserNone : String → Option (List Task) := fun _ => none

/-- Witness for C9 at concrete stored blobs. -/
theorem load_absent_or_unparseable_empty_witness :
    loadTasks deserNone none = []
    ∧ loadTasks deserNone (some "") = []
    ∧ loadTasks deserNone (some "not json") = [] := by
  have h := load_absent_or_unparseable_empty deserNone
  exact ⟨h.1, h.2.1, h.2.2.1 "not json" rfl⟩

end DexBrain
